import Mathlib

/-!
Verification of the sync-settings extension activation module
(src/extension.ts) and, where the repository files are not present in the
excerpt, of components modelled from the specification. Definitions are
shallow embeddings of the TypeScript source; theorems settle the frozen
claims about them.
-/

namespace SyncSettings

/-! ## Version components and JavaScript comparison semantics

The whats-new logic in `activate` (extension.ts lines 111-140) compares
dotted version strings componentwise with the JavaScript operators `>` and
`===` applied to the results of `version.split('.')[i]`.
-/

/-- Splits a character sequence at every dot, with JavaScript
`split('.')` semantics for a single-character separator: the empty string
yields one empty component, and separators at the ends yield empty
components. -/
def splitOnDot : List Char → List (List Char)
  | [] => [[]]
  | c :: rest =>
    match splitOnDot rest with
    | [] => [[]]
    | comp :: comps =>
      if c = '.' then [] :: comp :: comps
      else (c :: comp) :: comps

/-- Embeds `v.split('.')[i]` from extension.ts: the i-th dot-separated
component of a version string, `none` when the index is out of range
(JavaScript `undefined`). -/
def versionComponent (v : String) (i : Nat) : Option (List Char) :=
  (splitOnDot v.toList).get? i

/-- Lexicographic comparison of character sequences by code point, which
is how the JavaScript `<` and `>` operators compare strings. -/
def charsLt : List Char → List Char → Bool
  | [], [] => false
  | [], _ :: _ => true
  | _ :: _, [] => false
  | a :: xs, b :: ys =>
    if a < b then true
    else if b < a then false
    else charsLt xs ys

/-- JavaScript `a > b` where each operand is a string or `undefined`:
lexicographic comparison of the strings; any comparison involving
`undefined` is false (it converts to NaN). -/
def jsGt : Option (List Char) → Option (List Char) → Bool
  | some a, some b => charsLt b a
  | _, _ => false

/-- JavaScript `a === b` where each operand is a string or `undefined`. -/
def jsStrictEq : Option (List Char) → Option (List Char) → Bool
  | some a, some b => decide (a = b)
  | none, none => true
  | _, _ => false

/-- Embeds the outer guard of the whats-new block at extension.ts line 119:
`previousVersion === undefined || currentVersion !== previousVersion`. -/
def whatsNewGuard (previousVersion : Option String) (currentVersion : String) : Bool :=
  match previousVersion with
  | none => true
  | some p => decide (currentVersion ≠ p)

/-- Embeds the decision at extension.ts lines 119-140 of whether
`showWhatsNewMessage` is invoked during `activate`, as a function of the
stored previous version, the current package version and the
`syncSettings.notification` configuration value (`none` models an unset
option, JavaScript `undefined`). -/
def shouldShowWhatsNewMessage (previousVersion : Option String)
    (currentVersion : String) (notification : Option String) : Bool :=
  if whatsNewGuard previousVersion currentVersion then
    match previousVersion with
    | none => false
    | some prev =>
      if notification = some "major" then
        jsGt (versionComponent currentVersion 0) (versionComponent prev 0)
      else if notification = some "minor" then
        jsGt (versionComponent currentVersion 0) (versionComponent prev 0) ||
          (jsStrictEq (versionComponent currentVersion 0) (versionComponent prev 0) &&
            jsGt (versionComponent currentVersion 1) (versionComponent prev 1))
      else if notification = some "none" then
        false
      else
        true
  else
    false

/-- Embeds the `context.globalState.update(VERSION_KEY, currentVersion)`
call at extension.ts line 120: the version stored in global state after
`activate` runs. -/
def storedVersionAfterActivate (previousVersion : Option String)
    (currentVersion : String) : Option String :=
  if whatsNewGuard previousVersion currentVersion then some currentVersion
  else previousVersion

/-- Reads a character sequence as a decimal natural number, `none` when it
is empty or contains a non-digit. -/
def charsToNat? (cs : List Char) : Option Nat :=
  if cs ≠ [] ∧ cs.all Char.isDigit then
    some (cs.foldl (fun n c => n * 10 + (c.toNat - 48)) 0)
  else
    none

/-- Numeric value of the i-th dotted component of a version string, for
stating the claims that read "component increased" numerically. -/
def numComponent (v : String) (i : Nat) : Option Nat :=
  (versionComponent v i).bind charsToNat?

/-- Numeric `a > b` on optional naturals; false when either side is absent. -/
def numGt : Option Nat → Option Nat → Bool
  | some a, some b => decide (b < a)
  | _, _ => false

/-- States claim C2 as written, with the version components compared as
numbers: whether the whats-new message should be shown when a previous
version exists and differs from the current one. -/
def claimC2NumericShows (prev curr : String) (notification : Option String) : Bool :=
  if notification = some "none" then false
  else if notification = some "major" then
    numGt (numComponent curr 0) (numComponent prev 0)
  else if notification = some "minor" then
    numGt (numComponent curr 0) (numComponent prev 0) ||
      (numComponent curr 0 = numComponent prev 0 &&
        numGt (numComponent curr 1) (numComponent prev 1))
  else
    true

/-- States the amended claim C2, with the version components compared as
strings exactly as the JavaScript `>` and `===` operators do. -/
def claimC2LexShows (prev curr : String) (notification : Option String) : Bool :=
  if notification = some "none" then false
  else if notification = some "major" then
    jsGt (versionComponent curr 0) (versionComponent prev 0)
  else if notification = some "minor" then
    jsGt (versionComponent curr 0) (versionComponent prev 0) ||
      (jsStrictEq (versionComponent curr 0) (versionComponent prev 0) &&
        jsGt (versionComponent curr 1) (versionComponent prev 1))
  else
    true

/-! ## Command registration (extension.ts lines 146-160) -/

/-- Handlers imported at extension.ts lines 3-15, one per command module. -/
inductive CommandHandler where
  | createProfile
  | deleteProfile
  | download
  | listMissingExtensions
  | openProfileDirectory
  | openProfileSettings
  | openRepositoryDirectory
  | openSettings
  | reset
  | review
  | switchProfile
  | upload
  | viewDifferences
deriving DecidableEq, Repr

/-- Embeds the `vscode.commands.registerCommand` calls at extension.ts
lines 147-159, in source order: every command `activate` registers, paired
with its handler. -/
def registeredCommands : List (String × CommandHandler) :=
  [("syncSettings.createProfile", .createProfile),
   ("syncSettings.deleteProfile", .deleteProfile),
   ("syncSettings.download", .download),
   ("syncSettings.listMissingExtensions", .listMissingExtensions),
   ("syncSettings.openProfileDirectory", .openProfileDirectory),
   ("syncSettings.openProfileSettings", .openProfileSettings),
   ("syncSettings.openRepositoryDirectory", .openRepositoryDirectory),
   ("syncSettings.openSettings", .openSettings),
   ("syncSettings.reset", .reset),
   ("syncSettings.review", .review),
   ("syncSettings.switchProfile", .switchProfile),
   ("syncSettings.upload", .upload),
   ("syncSettings.viewDifferences", .viewDifferences)]

/-- The thirteen command-to-handler bindings enumerated by claim C3, in the
order the claim lists them. -/
def claimC3Commands : List (String × CommandHandler) :=
  [("syncSettings.createProfile", .createProfile),
   ("syncSettings.deleteProfile", .deleteProfile),
   ("syncSettings.download", .download),
   ("syncSettings.upload", .upload),
   ("syncSettings.review", .review),
   ("syncSettings.reset", .reset),
   ("syncSettings.switchProfile", .switchProfile),
   ("syncSettings.listMissingExtensions", .listMissingExtensions),
   ("syncSettings.viewDifferences", .viewDifferences),
   ("syncSettings.openProfileDirectory", .openProfileDirectory),
   ("syncSettings.openProfileSettings", .openProfileSettings),
   ("syncSettings.openRepositoryDirectory", .openRepositoryDirectory),
   ("syncSettings.openSettings", .openSettings)]

/-! ## Activation trace (extension.ts lines 111-192)

The body of `activate` is straight-line asynchronous code. We embed it as
a list of steps executed in source order by a small state machine. The
`Settings` singleton contract (`get()` fails with `NotLoadedError` before
`load()`) and the possibility that `setupCrons()` rejects (spec:
`InvalidScheduleError`) are the only sources of failure the claims
mention, so the machine tracks exactly those.
-/

/-- Steps of `activate`, in the order the source executes them. -/
inductive ActStep where
  | setKeysForSync
  | whatsNewBlock
  | settingsLoad
  | registerCommand (name : String)
  | registerTreeDataProvider
  | settingsGet
  | createWatcher
  | registerWatcherHandler
  | setupCrons
  | registerConfigurationListener
  | pushSubscriptions
deriving DecidableEq, Repr

/-- Errors the activation trace can surface. `notLoadedError` models the
Settings contract from the spec: `get()` called before `load()`.
`invalidScheduleError` models `setupCrons()` rejecting. -/
inductive ActError where
  | notLoadedError
  | invalidScheduleError
deriving DecidableEq, Repr

/-- Observable state accumulated while `activate` runs. -/
structure ActState where
  settingsLoaded : Bool
  commands : List String
  treeProviderRegistered : Bool
  watcherHandlerRegistered : Bool
  configurationListenerRegistered : Bool
  subscriptionsPushed : Bool
  errorLogged : Bool
deriving DecidableEq, Repr

/-- Initial activation state: nothing loaded or registered. -/
def ActState.init : ActState :=
  ⟨false, [], false, false, false, false, false⟩

/-- Executes one step of `activate`. `cronsFail` says whether the
`setupCrons()` call rejects. Modelled from the spec for the two calls whose
code is outside the excerpt: `Settings.get()` fails with `NotLoadedError`
when `Settings.load()` has not completed, and a failing `setupCrons()`
throws `InvalidScheduleError`. All other steps come from extension.ts. -/
def runStep (cronsFail : Bool) (s : ActState) : ActStep → Except ActError ActState
  | .setKeysForSync => .ok s
  | .whatsNewBlock => .ok s
  | .settingsLoad => .ok { s with settingsLoaded := true }
  | .registerCommand name => .ok { s with commands := s.commands ++ [name] }
  | .registerTreeDataProvider => .ok { s with treeProviderRegistered := true }
  | .settingsGet => if s.settingsLoaded then .ok s else .error .notLoadedError
  | .createWatcher => .ok s
  | .registerWatcherHandler => .ok { s with watcherHandlerRegistered := true }
  | .setupCrons =>
    if cronsFail then .error .invalidScheduleError else .ok s
  | .registerConfigurationListener => .ok { s with configurationListenerRegistered := true }
  | .pushSubscriptions => .ok { s with subscriptionsPushed := true }

/-- Runs a list of steps; an exception aborts the remaining steps (nothing
in `activate` catches around `await setupCrons()` or `Settings.get()`), and
the state reached so far is returned alongside it. -/
def runSteps (cronsFail : Bool) : ActState → List ActStep → ActState × Option ActError
  | s, [] => (s, none)
  | s, step :: rest =>
    match runStep cronsFail s step with
    | .ok s1 => runSteps cronsFail s1 rest
    | .error e => (s, some e)

/-- The steps of `activate` transcribed from extension.ts lines 111-192 in
source order. -/
def activateSteps : List ActStep :=
  [.setKeysForSync,
   .whatsNewBlock,
   .settingsLoad,
   .registerCommand "syncSettings.createProfile",
   .registerCommand "syncSettings.deleteProfile",
   .registerCommand "syncSettings.download",
   .registerCommand "syncSettings.listMissingExtensions",
   .registerCommand "syncSettings.openProfileDirectory",
   .registerCommand "syncSettings.openProfileSettings",
   .registerCommand "syncSettings.openRepositoryDirectory",
   .registerCommand "syncSettings.openSettings",
   .registerCommand "syncSettings.reset",
   .registerCommand "syncSettings.review",
   .registerCommand "syncSettings.switchProfile",
   .registerCommand "syncSettings.upload",
   .registerCommand "syncSettings.viewDifferences",
   .registerTreeDataProvider,
   .settingsGet,
   .createWatcher,
   .registerWatcherHandler,
   .setupCrons,
   .registerConfigurationListener,
   .pushSubscriptions]

/-- Runs the whole of `activate` from the initial state. -/
def runActivate (cronsFail : Bool) : ActState × Option ActError :=
  runSteps cronsFail ActState.init activateSteps

/-! ## Watcher handler (extension.ts lines 169-181) -/

/-- Outcome of a `RepositoryFactory.reload()` call: success, or a thrown
error carrying a message. -/
inductive ReloadResult where
  | ok
  | err (msg : String)
deriving DecidableEq, Repr

/-- Observable effects of the watcher-triggered reload task. Modelled from
the spec for `Logger.error` (whose code is outside the excerpt): errors
surface to the user as a visible error notification. -/
inductive WatcherEffect where
  | errorNotification (msg : String)
deriving DecidableEq, Repr

/-- Embeds the task body at extension.ts lines 173-180: `try { await
RepositoryFactory.reload() } catch (error) { Logger.error(error) }`.
Returns the effects produced and whether an exception escapes the task. -/
def watcherReloadTask (result : ReloadResult) : List WatcherEffect × Bool :=
  match result with
  | .ok => ([], false)
  | .err msg => ([.errorNotification msg], false)

/-! ## Debounced reload (extension.ts lines 169-181)

Modelled from the spec: `ThrottledDelayer` (src/utils/async.ts, outside the
excerpt) is a trailing-edge debouncer with a 200ms delay: each `trigger`
call cancels a pending timer and re-arms it for `delay` from the trigger,
so bursts of file-change events coalesce and the task runs once per lull.
We count how often the delayed task - which invokes
`RepositoryFactory.reload()` - executes, given the event timestamps.
-/

/-- Counts executions of the debounced task: the state is the pending
deadline, if a timer is armed. An event before the deadline re-arms the
timer without firing; an event at or after the deadline means the pending
task fired before the event arrived. A still-armed timer at the end fires
once more. -/
def debounceFireCount (delay : Nat) : Option Nat → List Nat → Nat
  | none, [] => 0
  | some _, [] => 1
  | none, t :: rest => debounceFireCount delay (some (t + delay)) rest
  | some d, t :: rest =>
    if t < d then debounceFireCount delay (some (t + delay)) rest
    else 1 + debounceFireCount delay (some (t + delay)) rest

/-- Number of `RepositoryFactory.reload()` invocations the watcher handler
performs for a given trace of `settings.yml` change-event timestamps: the
handler at extension.ts lines 172-181 passes the reload task through a
`ThrottledDelayer` armed with a 200ms delay (line 169), so reload runs
exactly once per debounced fire. -/
def reloadInvocations (events : List Nat) : Nat :=
  debounceFireCount 200 none events

/-! ## Configuration-change listener (extension.ts lines 185-189) -/

/-- A configuration-change event, abstracted by which configuration keys it
affects (`event.affectsConfiguration`). -/
structure ConfigChangeEvent where
  affectsConfiguration : String → Bool

/-- Embeds the listener at extension.ts lines 185-189: whether the handler
re-invokes `setupCrons()` for a given event. -/
def configChangeReinvokesSetupCrons (e : ConfigChangeEvent) : Bool :=
  e.affectsConfiguration "syncSettings.crons"

/-! ## Diff Engine

Modelled from the spec: the Diff Engine (not part of the excerpted files)
computes structural, key-by-key differences between parsed settings
documents and set differences between extension lists, producing a patch of
change records {path, kind: added|removed|modified, old value, new value}
ordered by document path, and `apply` replays a patch onto a base snapshot.
Documents are embedded as association lists sorted strictly by path.
-/

/-- A parsed scalar settings value at a document path. -/
inductive Value where
  | str (s : String)
  | num (n : Int)
  | boolean (b : Bool)
  | null
deriving DecidableEq, Repr

/-- A change record kind with its old and new values, as in the spec data
model {path, kind: added|removed|modified, old value, new value}. -/
inductive Change (V : Type) where
  | added (v : V)
  | removed (v : V)
  | modified (old v : V)
deriving DecidableEq, Repr

/-- A document: path-value pairs, well-formed when strictly sorted by path. -/
def DocSorted {K V : Type} [LinearOrder K] (d : List (K × V)) : Prop :=
  List.Pairwise (fun a b => a.1 < b.1) d

instance {K V : Type} [LinearOrder K] (d : List (K × V)) :
    Decidable (DocSorted d) :=
  List.instDecidablePairwise d

/-- Modelled from the spec: structural diff of two sorted documents, by
simultaneous descent on paths; emits one change record per differing path,
ordered by path. -/
def diffDoc {K V : Type} [LinearOrder K] [DecidableEq V] :
    List (K × V) → List (K × V) → List (K × Change V)
  | [], [] => []
  | [], (kt, vt) :: target => (kt, .added vt) :: diffDoc [] target
  | (kb, vb) :: base, [] => (kb, .removed vb) :: diffDoc base []
  | (kb, vb) :: base, (kt, vt) :: target =>
    if kb < kt then (kb, .removed vb) :: diffDoc base ((kt, vt) :: target)
    else if kt < kb then (kt, .added vt) :: diffDoc ((kb, vb) :: base) target
    else if vb = vt then diffDoc base target
    else (kb, .modified vb vt) :: diffDoc base target
termination_by base target => base.length + target.length

/-- Modelled from the spec: applies a path-ordered patch to a sorted
document, merging by path. -/
def applyDoc {K V : Type} [LinearOrder K] :
    List (K × V) → List (K × Change V) → List (K × V)
  | base, [] => base
  | [], (kp, .added v) :: patch => (kp, v) :: applyDoc [] patch
  | [], (_, .removed _) :: patch => applyDoc [] patch
  | [], (_, .modified _ _) :: patch => applyDoc [] patch
  | (kb, vb) :: base, (kp, c) :: patch =>
    if kp < kb then
      match c with
      | .added v => (kp, v) :: applyDoc ((kb, vb) :: base) patch
      | .removed _ => applyDoc ((kb, vb) :: base) patch
      | .modified _ _ => applyDoc ((kb, vb) :: base) patch
    else if kb < kp then
      (kb, vb) :: applyDoc base ((kp, c) :: patch)
    else
      match c with
      | .added v => (kp, v) :: applyDoc base patch
      | .removed _ => applyDoc base patch
      | .modified _ v => (kb, v) :: applyDoc base patch
termination_by base patch => base.length + patch.length

/-- Modelled from the spec: a Settings Snapshot, the immutable capture the
Diff Engine compares - parsed settings and keybindings documents keyed by
path, and the extension list as a set of identifiers (a sorted
identifier-keyed list with no payload, so its diff is a set difference
producing only added/removed records). -/
structure Snapshot where
  settings : List (String × Value)
  keybindings : List (String × Value)
  extensions : List (String × Unit)
deriving DecidableEq, Repr

/-- A Patch: per-document change records ordered by path, plus the
extension-set changes. -/
structure Patch0 where
  settings : List (String × Change Value)
  keybindings : List (String × Change Value)
  extensions : List (String × Change Unit)
deriving DecidableEq, Repr

/-- A Snapshot is well-formed when each of its documents and its extension
set is strictly sorted by path or identifier. -/
def Snapshot.wf (s : Snapshot) : Prop :=
  DocSorted s.settings ∧ DocSorted s.keybindings ∧ DocSorted s.extensions

instance (s : Snapshot) : Decidable s.wf := by
  unfold Snapshot.wf
  infer_instance

/-- Modelled from the spec: `diff(base, target)` of the Diff Engine,
componentwise over the snapshot documents and the extension set. -/
def diff (base target : Snapshot) : Patch0 :=
  ⟨diffDoc base.settings target.settings,
   diffDoc base.keybindings target.keybindings,
   diffDoc base.extensions target.extensions⟩

/-- Modelled from the spec: `apply(base, patch)` of the Diff Engine. -/
def apply (base : Snapshot) (patch : Patch0) : Snapshot :=
  ⟨applyDoc base.settings patch.settings,
   applyDoc base.keybindings patch.keybindings,
   applyDoc base.extensions patch.extensions⟩

/-! ## Supporting lemmas -/

/-- Every path mentioned by a diff comes from one of the two inputs. -/
theorem diffDoc_path_mem {K V : Type} [LinearOrder K] [DecidableEq V] :
    ∀ (base target : List (K × V)) (p : K × Change V), p ∈ diffDoc base target →
      p.1 ∈ base.map Prod.fst ∨ p.1 ∈ target.map Prod.fst
  | [], [], p, h => by simp [diffDoc] at h
  | [], (kt, vt) :: target, p, h => by
    rw [diffDoc] at h
    rcases List.mem_cons.mp h with h1 | h1
    · right; simp [h1]
    · rcases diffDoc_path_mem [] target p h1 with h2 | h2
      · simp at h2
      · right; simp [List.mem_cons]; right; simpa using h2
  | (kb, vb) :: base, [], p, h => by
    rw [diffDoc] at h
    rcases List.mem_cons.mp h with h1 | h1
    · left; simp [h1]
    · rcases diffDoc_path_mem base [] p h1 with h2 | h2
      · left; simp [List.mem_cons]; right; simpa using h2
      · simp at h2
  | (kb, vb) :: base, (kt, vt) :: target, p, h => by
    rw [diffDoc] at h
    by_cases hbt : kb < kt
    · rw [if_pos hbt] at h
      rcases List.mem_cons.mp h with h1 | h1
      · left; simp [h1]
      · rcases diffDoc_path_mem base ((kt, vt) :: target) p h1 with h2 | h2
        · left; simp [List.mem_cons]; right; simpa using h2
        · right; exact h2
    · rw [if_neg hbt] at h
      by_cases htb : kt < kb
      · rw [if_pos htb] at h
        rcases List.mem_cons.mp h with h1 | h1
        · right; simp [h1]
        · rcases diffDoc_path_mem ((kb, vb) :: base) target p h1 with h2 | h2
          · left; exact h2
          · right; simp [List.mem_cons]; right; simpa using h2
      · rw [if_neg htb] at h
        have hrec : p ∈ diffDoc base target →
            p.1 ∈ ((kb, vb) :: base).map Prod.fst ∨ p.1 ∈ ((kt, vt) :: target).map Prod.fst := by
          intro h1
          rcases diffDoc_path_mem base target p h1 with h2 | h2
          · left; simp [List.mem_cons]; right; simpa using h2
          · right; simp [List.mem_cons]; right; simpa using h2
        by_cases hv : vb = vt
        · rw [if_pos hv] at h
          exact hrec h
        · rw [if_neg hv] at h
          rcases List.mem_cons.mp h with h1 | h1
          · left; simp [h1]
          · exact hrec h1
termination_by base target => base.length + target.length

/-- Applying a patch whose paths all lie strictly above the head key leaves
the head entry in place. -/
theorem applyDoc_cons_of_lt {K V : Type} [LinearOrder K] (kb : K) (vb : V)
    (base : List (K × V)) (patch : List (K × Change V))
    (h : ∀ p ∈ patch, kb < p.1) :
    applyDoc ((kb, vb) :: base) patch = (kb, vb) :: applyDoc base patch := by
  cases patch with
  | nil => cases base <;> simp [applyDoc]
  | cons hd tl =>
    obtain ⟨kp, c⟩ := hd
    have hlt : kb < kp := h (kp, c) (by simp)
    have hnlt : ¬kp < kb := asymm hlt
    cases c <;> simp [applyDoc, hlt, hnlt]

/-- Round-trip invariant of the Diff Engine on sorted documents: applying
the diff from base to target onto base reconstructs target exactly. -/
theorem applyDoc_diffDoc {K V : Type} [LinearOrder K] [DecidableEq V] :
    ∀ (base target : List (K × V)), DocSorted base → DocSorted target →
      applyDoc base (diffDoc base target) = target
  | [], [], _, _ => by simp [diffDoc, applyDoc]
  | [], (kt, vt) :: target, hb, ht => by
    have ih := applyDoc_diffDoc [] target hb ht.of_cons
    simp [diffDoc, applyDoc, ih]
  | (kb, vb) :: base, [], hb, ht => by
    have ih := applyDoc_diffDoc base [] hb.of_cons ht
    simp [diffDoc, applyDoc, ih]
  | (kb, vb) :: base, (kt, vt) :: target, hb, ht => by
    by_cases hbt : kb < kt
    · have ih := applyDoc_diffDoc base ((kt, vt) :: target) hb.of_cons ht
      simp [diffDoc, applyDoc, hbt, asymm hbt, ih]
    · by_cases htb : kt < kb
      · have ih := applyDoc_diffDoc ((kb, vb) :: base) target hb ht.of_cons
        simp [diffDoc, applyDoc, hbt, htb, ih]
      · have hk : kb = kt := le_antisymm (le_of_not_lt htb) (le_of_not_lt hbt)
        subst hk
        have ih := applyDoc_diffDoc base target hb.of_cons ht.of_cons
        by_cases hv : vb = vt
        · subst hv
          have hgt : ∀ p ∈ diffDoc base target, kb < p.1 := by
            intro p hp
            rcases diffDoc_path_mem base target p hp with h2 | h2
            · rcases List.mem_map.mp h2 with ⟨q, hq, hq1⟩
              rw [← hq1]
              exact (List.pairwise_cons.mp hb).1 q hq
            · rcases List.mem_map.mp h2 with ⟨q, hq, hq1⟩
              rw [← hq1]
              exact (List.pairwise_cons.mp ht).1 q hq
          rw [show diffDoc ((kb, vb) :: base) ((kb, vb) :: target) = diffDoc base target by
            simp [diffDoc]]
          rw [applyDoc_cons_of_lt kb vb base (diffDoc base target) hgt, ih]
        · simp [diffDoc, applyDoc, hv, ih]
termination_by base target => base.length + target.length

/-- A burst bounded by the delay and sorted in time has each event within
the delay of its predecessor. -/
theorem chain_within_delay (delay : Nat) :
    ∀ (e : Nat) (l : List Nat), List.Chain' (· ≤ ·) (e :: l) →
      (∀ t ∈ l, t < e + delay) →
      List.Chain' (fun a b => b < a + delay) (e :: l)
  | e, [], _, _ => List.chain'_singleton e
  | e, t :: rest, hs, hb => by
    have h1 : e ≤ t := (List.chain'_cons.mp hs).1
    have h2 := (List.chain'_cons.mp hs).2
    refine List.chain'_cons.mpr ⟨hb t (by simp), ?_⟩
    apply chain_within_delay delay t rest h2
    intro u hu
    exact lt_of_lt_of_le (hb u (by simp [hu])) (by omega)

/-- With a timer armed whose deadline lies beyond the next event, a trace
in which every event falls within the delay of its predecessor produces
exactly one fire. -/
theorem debounceFireCount_eq_one (delay : Nat) :
    ∀ (l : List Nat) (d : Nat), (∀ t ∈ l.head?, t < d) →
      List.Chain' (fun a b => b < a + delay) l →
      debounceFireCount delay (some d) l = 1
  | [], d, _, _ => by simp [debounceFireCount]
  | t :: rest, d, hh, hc => by
    have ht : t < d := hh t (by simp)
    rw [debounceFireCount, if_pos ht]
    apply debounceFireCount_eq_one delay rest (t + delay)
    · intro u hu
      exact (List.chain'_cons'.mp hc).1 u hu
    · exact hc.tail

/-! ## Claims -/

/-- C1: a burst of change events on the watched settings.yml file - sorted
in time, every later event within the 200ms delay window opened by the
first - triggers exactly one invocation of RepositoryFactory.reload
through the throttled delayer: events coalesce, with no reload per
individual event. -/
theorem C1_watcher_burst_single_reload (e : Nat) (rest : List Nat)
    (hsorted : List.Chain' (· ≤ ·) (e :: rest))
    (hburst : ∀ t ∈ rest, t < e + 200) :
    reloadInvocations (e :: rest) = 1 := by
  unfold reloadInvocations
  rw [debounceFireCount]
  apply debounceFireCount_eq_one 200 rest (e + 200)
  · intro u hu
    exact hburst u (List.mem_of_mem_head? hu)
  · exact (chain_within_delay 200 e rest hsorted hburst).tail

/-- Witness for C1 at the burst 0ms, 50ms, 120ms. -/
theorem C1_watcher_burst_single_reload_witness :
    List.Chain' (· ≤ ·) [0, 50, 120] ∧ (∀ t ∈ [50, 120], t < 0 + 200) ∧
      reloadInvocations [0, 50, 120] = 1 :=
  ⟨by simp, by decide,
    C1_watcher_burst_single_reload 0 [50, 120] (by simp) (by decide)⟩

/-- C2 counterexample: with notification set to major, stored previous
version 9.0.0 and current version 10.0.0, the numeric major component
increased, so the claim as stated requires the whats-new message; the code
does not show it. -/
theorem C2_numeric_comparison_counterexample :
    claimC2NumericShows "9.0.0" "10.0.0" (some "major") = true ∧
    shouldShowWhatsNewMessage (some "9.0.0") "10.0.0" (some "major") = false := by
  decide

/-- C2 amended: for every activation where a stored previous version
exists and differs from the current version, the whats-new message is
shown according to the notification option - never for none; for major,
only when the major components as strings compare greater; for minor, only
when the major components as strings compare greater or are equal strings
and the minor components as strings compare greater; always for every
other value - the comparisons being the JavaScript lexicographic string
comparisons of the dotted components. -/
theorem C2_notification_decision (prev curr : String) (hneq : curr ≠ prev)
    (notification : Option String) :
    shouldShowWhatsNewMessage (some prev) curr notification =
      claimC2LexShows prev curr notification := by
  unfold shouldShowWhatsNewMessage claimC2LexShows whatsNewGuard
  rcases notification with _ | nv
  · simp [hneq]
  · by_cases h1 : nv = "major"
    · simp +decide [hneq, h1]
    · by_cases h2 : nv = "minor"
      · simp +decide [hneq, h1, h2]
      · by_cases h3 : nv = "none"
        · simp +decide [hneq, h1, h2, h3]
        · simp +decide [hneq, h1, h2, h3]

/-- Witness for C2 at previous version 1.0.0, current 1.1.0, option minor. -/
theorem C2_notification_decision_witness :
    ("1.1.0" : String) ≠ "1.0.0" ∧
    shouldShowWhatsNewMessage (some "1.0.0") "1.1.0" (some "minor") =
      claimC2LexShows "1.0.0" "1.1.0" (some "minor") :=
  ⟨by decide, C2_notification_decision "1.0.0" "1.1.0" (by decide) (some "minor")⟩

/-- C3: activate registers exactly the thirteen syncSettings commands of
the claim, each bound one-to-one to its like-named handler, and no other
command. -/
theorem C3_commands_registered_exactly :
    registeredCommands.length = 13 ∧
    (∀ p ∈ claimC3Commands, p ∈ registeredCommands) ∧
    (∀ p ∈ registeredCommands, p ∈ claimC3Commands) ∧
    (registeredCommands.map Prod.fst).Nodup := by
  decide

/-- C4: in the activation trace, no settingsGet step precedes the
settingsLoad step, and consequently running activate never fails with
NotLoadedError, whether or not setupCrons fails. -/
theorem C4_load_completes_before_get :
    ((activateSteps.takeWhile fun s => decide (s ≠ ActStep.settingsLoad)).all
        fun s => decide (s ≠ ActStep.settingsGet)) = true ∧
    ∀ cronsFail : Bool, (runActivate cronsFail).2 ≠ some ActError.notLoadedError := by
  refine ⟨by decide, ?_⟩
  intro cronsFail
  cases cronsFail <;> decide

/-- C5: the watcher-triggered reload task never lets an error escape, and
every error thrown by RepositoryFactory.reload is surfaced as a visible
error notification. -/
theorem C5_watcher_reload_error_contained :
    (∀ result : ReloadResult, (watcherReloadTask result).2 = false) ∧
    ∀ msg : String, watcherReloadTask (.err msg) = ([.errorNotification msg], false) := by
  constructor
  · intro result
    cases result <;> rfl
  · intro msg
    rfl

/-- C6 counterexample: when setupCrons fails during activation, the error
is not logged and the configuration-change listener is never registered,
so activation does not otherwise complete as the claim states. -/
theorem C6_setupCrons_failure_counterexample :
    (runActivate true).2 = some ActError.invalidScheduleError ∧
    (runActivate true).1.errorLogged = false ∧
    (runActivate true).1.configurationListenerRegistered = false := by
  decide

/-- C6 amended: if setupCrons fails during activation, activate does not
catch the error: it propagates, unlogged, out of activate; the thirteen
commands registered before the failure remain registered and the tree
data provider and watcher handler remain installed, but the
configuration-change listener is never registered and the disposables are
never pushed onto the extension context subscriptions. -/
theorem C6_setupCrons_failure_aborts_rest_of_activation :
    (runActivate true).2 = some ActError.invalidScheduleError ∧
    (runActivate true).1.commands = registeredCommands.map Prod.fst ∧
    (runActivate true).1.treeProviderRegistered = true ∧
    (runActivate true).1.watcherHandlerRegistered = true ∧
    (runActivate true).1.configurationListenerRegistered = false ∧
    (runActivate true).1.subscriptionsPushed = false ∧
    (runActivate true).1.errorLogged = false := by
  decide

/-- C7: a configuration-change event re-invokes setupCrons if and only if
it affects the syncSettings.crons configuration. -/
theorem C7_config_change_reinvokes_setupCrons_iff (e : ConfigChangeEvent) :
    configChangeReinvokesSetupCrons e = true ↔
      e.affectsConfiguration "syncSettings.crons" = true :=
  Iff.rfl

/-- C8: for all well-formed Snapshots B and T, applying diff(B, T) to B
yields exactly T - the round-trip invariant of the Diff Engine. -/
theorem C8_apply_diff_roundtrip (B T : Snapshot) (hB : B.wf) (hT : T.wf) :
    SyncSettings.apply B (SyncSettings.diff B T) = T := by
  obtain ⟨hB1, hB2, hB3⟩ := hB
  obtain ⟨hT1, hT2, hT3⟩ := hT
  have h1 := applyDoc_diffDoc B.settings T.settings hB1 hT1
  have h2 := applyDoc_diffDoc B.keybindings T.keybindings hB2 hT2
  have h3 := applyDoc_diffDoc B.extensions T.extensions hB3 hT3
  simp [SyncSettings.apply, SyncSettings.diff, h1, h2, h3]

/-- Witness for C8 at a concrete pair of well-formed snapshots exercising
a modification, an addition, a removal and an extension change. -/
theorem C8_apply_diff_roundtrip_witness :
    (⟨[("editor.fontSize", Value.num 12), ("workbench.theme", Value.str "light")],
      [], [("publisher.extA", ())]⟩ : Snapshot).wf ∧
    (⟨[("editor.fontSize", Value.num 14)],
      [("ctrl+k", Value.str "cmd")], [("publisher.extB", ())]⟩ : Snapshot).wf ∧
    SyncSettings.apply
        ⟨[("editor.fontSize", Value.num 12), ("workbench.theme", Value.str "light")],
         [], [("publisher.extA", ())]⟩
        (SyncSettings.diff
          ⟨[("editor.fontSize", Value.num 12), ("workbench.theme", Value.str "light")],
           [], [("publisher.extA", ())]⟩
          ⟨[("editor.fontSize", Value.num 14)],
           [("ctrl+k", Value.str "cmd")], [("publisher.extB", ())]⟩) =
      ⟨[("editor.fontSize", Value.num 14)],
       [("ctrl+k", Value.str "cmd")], [("publisher.extB", ())]⟩ :=
  ⟨by simp [Snapshot.wf, DocSorted]; decide,
   by simp [Snapshot.wf, DocSorted],
   C8_apply_diff_roundtrip _ _
     (by simp [Snapshot.wf, DocSorted]; decide)
     (by simp [Snapshot.wf, DocSorted])⟩

/-- C9: the major and minor notification checks compare dotted version
components as strings: numerically the major version increased from 9.2.3
to 10.0.0, yet with notification set to major no whats-new message is
shown, because the string comparison of the major components is false. -/
theorem C9_components_compared_as_strings :
    numGt (numComponent "10.0.0" 0) (numComponent "9.2.3" 0) = true ∧
    jsGt (versionComponent "10.0.0" 0) (versionComponent "9.2.3" 0) = false ∧
    shouldShowWhatsNewMessage (some "9.2.3") "10.0.0" (some "major") = false := by
  decide

/-- C10: on first activation, with no stored previous version, no
whats-new message is shown for any value of the notification option, and
the current version is written to global state. -/
theorem C10_first_activation_silent_and_stores_version (curr : String)
    (notification : Option String) :
    shouldShowWhatsNewMessage none curr notification = false ∧
    storedVersionAfterActivate none curr = some curr := by
  constructor
  · simp [shouldShowWhatsNewMessage, whatsNewGuard]
  · simp [storedVersionAfterActivate, whatsNewGuard]

end SyncSettings
